import Mathlib

/-!
Verification development for the orcaq embedded durable work queue
(`src/queue.go`).

The queue engine is embedded shallowly:

* The durable nutsdb store (one bucket, `Jobs`) is modelled as an
  association list from keys (strings, the job IDs) to decoded job
  records.  The spec guarantees the byte codec is an exact inverse pair
  (`decode(encode(r)) == r`), so the store holds the decoded records
  directly.
* A transactional operation is a pure function from a store to a store;
  a failing `Put` is modelled by a boolean oracle argument (`putOk`),
  and a failed transaction leaves the store unchanged (rollback).
* The notification channel is modelled by the list of IDs an operation
  sends on it (`notifications`); channel capacity and blocking are out
  of scope of the embedded claims.
* Fresh unique IDs (uuid.NewV4) are modelled by an explicit `freshID`
  argument; the spec assumes ID generation is collision free, expressed
  where needed by the hypothesis that `freshID` is absent from the store.
-/

namespace Orcaq

/-- Modelled from the spec: the `JobStatus` enumeration of the Job Record
(the Go file declaring `JobStatus` and the constants `Uack`, `Nack`,
`Ack`, `Failed` is not under `src/`): one of Unacknowledged,
NegativeAcknowledged, Acknowledged, Failed. -/
inductive JobStatus where
  | Uack
  | Nack
  | Ack
  | Failed
  deriving DecidableEq, Repr

/-- Modelled from the spec: the Job Record (the Go file declaring
`Job`, its codec `Bytes`/`DecodeJob`, and `RecoverableWorkerError` is
not under `src/`): ID (opaque token), Data (opaque payload bytes),
Status, Message (last status annotation), RetryCount (non-negative
integer). -/
structure Job where
  ID : String
  Data : List Nat
  Status : JobStatus
  Message : String
  RetryCount : Nat
  deriving DecidableEq, Repr

/-- The persisted contents of the `Jobs` bucket: an association list
from keys to decoded job records. -/
abbrev Store := List (String × Job)

/-- `tx.Get(jobsBucketName, k)`: the first record stored under key `k`. -/
def Store.get : Store → String → Option Job
  | [], _ => none
  | p :: rest, k => if p.1 = k then some p.2 else Store.get rest k

/-- `tx.Put(jobsBucketName, k, v)`: overwrite the record under key `k`,
appending a fresh binding when the key is absent. -/
def Store.put : Store → String → Job → Store
  | [], k, v => [(k, v)]
  | p :: rest, k, v => if p.1 = k then (k, v) :: rest else p :: Store.put rest k v

/-- `tx.Delete(jobsBucketName, k)`: remove the binding(s) under key `k`. -/
def Store.delete : Store → String → Store
  | [], _ => []
  | p :: rest, k => if p.1 = k then Store.delete rest k else p :: Store.delete rest k

/-- Well-formedness of the store, maintained by the engine: keys are
unique (exactly one live record per ID) and each record's `ID` field
equals the key it is stored under (`PushJob` stores `j` under `j.ID`). -/
def WF (s : Store) : Prop :=
  (s.map Prod.fst).Nodup ∧ ∀ p ∈ s, (p.2 : Job).ID = p.1

/-- Errors surfaced by the embedded store operations: a transaction
(`Put`) failure, or `Get` on an absent key. -/
inductive QErr where
  | storeErr
  | notFound
  deriving DecidableEq, Repr

/-- The error text (`err.Error()`) used when a status message is built
from an error. -/
def errText : QErr → String
  | .storeErr => "store error"
  | .notFound => "key not found"

/-- The outcome of one engine operation: the store after the
transaction (unchanged when it failed), the IDs sent on the
notification channel during the call, and the returned value or error. -/
structure OpResult (α : Type) where
  store : Store
  notifications : List String
  result : Except QErr α
  deriving Repr

/-- `Queue.PushJob` (`src/queue.go:160`): inside one `db.Update`
transaction, overwrite `j.ID` with a fresh token and `Put` the record
under the new ID; on transaction error return it with no signal,
otherwise send the new ID on the notifier and return it. -/
def pushJob (s : Store) (j : Job) (freshID : String) (putOk : Bool) :
    OpResult String :=
  if putOk then
    { store := s.put freshID { j with ID := freshID }
      notifications := [freshID]
      result := .ok freshID }
  else
    { store := s, notifications := [], result := .error .storeErr }

/-- `Queue.PushBytes` (`src/queue.go:149`): wrap the payload in a job
with `Status = Uack`, `RetryCount = 0` (ID and Message zero-valued) and
call `PushJob`. -/
def pushBytes (s : Store) (d : List Nat) (freshID : String) (putOk : Bool) :
    OpResult String :=
  pushJob s { ID := "", Data := d, Status := .Uack, Message := "", RetryCount := 0 }
    freshID putOk

/-- `Queue.GetJobByID` (`src/queue.go:177`): read-only `db.View`
transaction, `Get` then decode; the error from `Get` on an absent key
is returned. -/
def getJobByID (s : Store) (id : String) : Except QErr Job :=
  match s.get id with
  | some j => .ok j
  | none => .error .notFound

/-- `Queue.updateJobStatus` (`src/queue.go:191`): inside one
`db.Update` transaction, `Get` the record, set `Status` and `Message`,
increment `RetryCount` when the new status is `Nack`, and `Put` the
result back under the decoded record's `ID`; after the transaction,
when the new status is `Nack` and no error occurred, send `id` on the
notifier. -/
def updateJobStatus (s : Store) (id : String) (status : JobStatus)
    (message : String) (putOk : Bool) : OpResult Unit :=
  match s.get id with
  | none => { store := s, notifications := [], result := .error .notFound }
  | some j0 =>
    if putOk then
      let job : Job :=
        { j0 with
          Status := status
          Message := message
          RetryCount := if status = .Nack then j0.RetryCount + 1 else j0.RetryCount }
      { store := s.put job.ID job
        notifications := if status = .Nack then [id] else []
        result := .ok () }
    else
      { store := s, notifications := [], result := .error .storeErr }

/-- The `switch job.Status` of `Queue.processJobs`
(`src/queue.go:222`): `Uack` and `Nack` do nothing, `Failed` and `Ack`
delete the record. -/
def jobSwept (j : Job) : Bool :=
  match j.Status with
  | .Uack => false
  | .Nack => false
  | .Failed => true
  | .Ack => true

/-- The loop body of `Queue.processJobs` over the entries returned by
`GetAll`: delete each completed or failed record under the decoded
record's `ID`. -/
def sweepAux (acc : Store) (entries : List (String × Job)) : Store :=
  entries.foldl (fun a e => if jobSwept e.2 then a.delete (e.2 : Job).ID else a) acc

/-- `Queue.processJobs` (`src/queue.go:214`): one `db.Update`
transaction that scans all entries and deletes those whose status is
`Failed` or `Ack`; it never sends on the notifier. -/
def processJobs (s : Store) : OpResult Unit :=
  { store := sweepAux s s, notifications := [], result := .ok () }

/-- Outcome of a worker's `DoWork` call: nil, a
`RecoverableWorkerError`, or any other error (with its error text). -/
inductive WorkOutcome where
  | success
  | recoverable (msg : String)
  | permanent (msg : String)

/-- What one iteration of the dispatch loop left behind: the store, the
IDs re-signalled on the notifier, and whether `DoWork` was invoked. -/
structure IterResult where
  store : Store
  notifications : List String
  doWorkInvoked : Bool

/-- The `case jobID = <-q.notifier` branch of the worker loop in
`Queue.registerWorkerWithContext` (`src/queue.go:100`): mark the record
`Uack` with the pickup message, abandoning the iteration when that
fails; fetch the record, marking `Failed` with the error text when the
fetch fails; otherwise invoke `DoWork` and map its outcome to `Ack`
"Complete", `Nack` with the error text, or `Failed` with the error
text.  `markPutOk` and `finalPutOk` are the `Put` oracles of the first
and the final `updateJobStatus` transaction. -/
def dispatchIteration (s : Store) (jobID : String) (workerID : String)
    (doWork : Job → WorkOutcome) (markPutOk finalPutOk : Bool) : IterResult :=
  let r1 := updateJobStatus s jobID .Uack ("Picked up by " ++ workerID) markPutOk
  match r1.result with
  | .error _ =>
    { store := r1.store, notifications := r1.notifications, doWorkInvoked := false }
  | .ok _ =>
    match getJobByID r1.store jobID with
    | .error e =>
      let r2 := updateJobStatus r1.store jobID .Failed (errText e) finalPutOk
      { store := r2.store
        notifications := r1.notifications ++ r2.notifications
        doWorkInvoked := false }
    | .ok job =>
      match doWork job with
      | .success =>
        let r2 := updateJobStatus r1.store jobID .Ack "Complete" finalPutOk
        { store := r2.store
          notifications := r1.notifications ++ r2.notifications
          doWorkInvoked := true }
      | .recoverable m =>
        let r2 := updateJobStatus r1.store jobID .Nack m finalPutOk
        { store := r2.store
          notifications := r1.notifications ++ r2.notifications
          doWorkInvoked := true }
      | .permanent m =>
        let r2 := updateJobStatus r1.store jobID .Failed m finalPutOk
        { store := r2.store
          notifications := r1.notifications ++ r2.notifications
          doWorkInvoked := true }

/-- One engine operation over the store, for the cross-operation
invariants: `PushJob`, `PushBytes`, `updateJobStatus`, or the purge
sweep `processJobs`. -/
inductive EngineOp where
  | pushJ (j : Job) (freshID : String) (putOk : Bool)
  | pushB (d : List Nat) (freshID : String) (putOk : Bool)
  | update (id : String) (st : JobStatus) (msg : String) (putOk : Bool)
  | sweep

/-- The store after one engine operation. -/
def applyOp (s : Store) : EngineOp → Store
  | .pushJ j fid ok => (pushJob s j fid ok).store
  | .pushB d fid ok => (pushBytes s d fid ok).store
  | .update id st msg ok => (updateJobStatus s id st msg ok).store
  | .sweep => (processJobs s).store

/-- The operation is a successful `updateJobStatus` of `id` to `Nack`
(the one place the code increments `RetryCount`). -/
def nackBump (op : EngineOp) (id : String) : Bool :=
  match op with
  | .update idU .Nack _ true => idU = id
  | _ => false

/-- The push operations use a collision-free fresh ID, as the spec
assumes of uuid generation; other operations are unconstrained. -/
def opFresh (op : EngineOp) (s : Store) : Prop :=
  match op with
  | .pushJ _ fid _ => s.get fid = none
  | .pushB _ fid _ => s.get fid = none
  | _ => True

/-- A concrete sample job, used to instantiate witness theorems. -/
def jA : Job :=
  { ID := "a", Data := [3], Status := .Uack, Message := "", RetryCount := 0 }

/-- A concrete one-record sample store, used to instantiate witness
theorems. -/
def sA : Store := [("a", jA)]

/-- A concrete acknowledged (terminal) sample job, used to instantiate
witness theorems. -/
def jB : Job :=
  { ID := "b", Data := [5], Status := .Ack, Message := "done", RetryCount := 2 }

/-- A concrete two-record sample store (one live job, one terminal
job), used to instantiate witness theorems. -/
def sB : Store := [("a", jA), ("b", jB)]

/-! ### Association-list store lemmas -/

theorem Store.get_put_self (s : Store) (k : String) (v : Job) :
    (s.put k v).get k = some v := by
  induction s with
  | nil => simp [Store.put, Store.get]
  | cons p rest ih =>
    by_cases h : p.1 = k
    · simp [Store.put, Store.get, h]
    · simp [Store.put, Store.get, h, ih]

theorem Store.get_put_ne (s : Store) (k k' : String) (v : Job) (h : k' ≠ k) :
    (s.put k v).get k' = s.get k' := by
  have hkk : ¬ (k = k') := fun hh => h hh.symm
  induction s with
  | nil => simp [Store.put, Store.get, hkk]
  | cons p rest ih =>
    by_cases hp : p.1 = k
    · have hpk : ¬ (p.1 = k') := fun hh => hkk (hp.symm.trans hh)
      simp [Store.put, Store.get, hp, hpk, hkk]
    · by_cases hpk : p.1 = k'
      · simp [Store.put, Store.get, hp, hpk, h]
      · simp [Store.put, Store.get, hp, hpk, ih]

theorem Store.get_delete (s : Store) (k k' : String) :
    (s.delete k).get k' = if k' = k then none else s.get k' := by
  by_cases hk : k' = k
  · subst hk
    simp only [if_pos rfl]
    induction s with
    | nil => simp [Store.delete, Store.get]
    | cons p rest ih =>
      by_cases hp : p.1 = k'
      · simp [Store.delete, hp, ih]
      · simp [Store.delete, Store.get, hp, ih]
  · have hk2 : ¬ (k = k') := fun hh => hk hh.symm
    simp only [if_neg hk]
    induction s with
    | nil => simp [Store.delete, Store.get]
    | cons p rest ih =>
      by_cases hp : p.1 = k
      · have hpk : ¬ (p.1 = k') := fun hh => hk (hh.symm.trans hp)
        simp [Store.delete, Store.get, hp, hpk, ih, hk2]
      · by_cases hpk : p.1 = k'
        · simp [Store.delete, Store.get, hp, hpk, hk]
        · simp [Store.delete, Store.get, hp, hpk, ih]

theorem Store.get_mem (s : Store) (k : String) (v : Job)
    (h : s.get k = some v) : (k, v) ∈ s := by
  induction s with
  | nil => simp [Store.get] at h
  | cons p rest ih =>
    by_cases hp : p.1 = k
    · simp only [Store.get, if_pos hp, Option.some.injEq] at h
      have : p = (k, v) := Prod.ext hp h
      simp [this]
    · simp only [Store.get, if_neg hp] at h
      exact List.mem_cons_of_mem _ (ih h)

theorem Store.mem_get (s : Store) (k : String) (v : Job)
    (hnd : (s.map Prod.fst).Nodup) (h : (k, v) ∈ s) : s.get k = some v := by
  induction s with
  | nil => simp at h
  | cons p rest ih =>
    rw [List.map_cons, List.nodup_cons] at hnd
    rcases List.mem_cons.mp h with h1 | h1
    · simp [Store.get, ← h1]
    · have hp : p.1 ≠ k := by
        intro hh
        exact hnd.1 (hh ▸ (List.mem_map.mpr ⟨(k, v), h1, rfl⟩))
      simp [Store.get, hp, ih hnd.2 h1]

theorem WF.get_ID (s : Store) (k : String) (v : Job)
    (hwf : WF s) (h : s.get k = some v) : v.ID = k :=
  hwf.2 (k, v) (Store.get_mem s k v h)

/-! ### Sweep lemmas -/

theorem sweepAux_cons (acc : Store) (e : String × Job)
    (rest : List (String × Job)) :
    sweepAux acc (e :: rest) =
      sweepAux (if jobSwept e.2 then acc.delete (e.2 : Job).ID else acc) rest :=
  rfl

theorem sweepAux_get_none (entries : List (String × Job)) (acc : Store)
    (id : String) (h : acc.get id = none) :
    (sweepAux acc entries).get id = none := by
  induction entries generalizing acc with
  | nil => simpa [sweepAux] using h
  | cons e rest ih =>
    rw [sweepAux_cons]
    by_cases hs : jobSwept e.2 = true
    · rw [if_pos hs]
      apply ih
      rw [Store.get_delete]
      by_cases hid : id = (e.2 : Job).ID
      · rw [if_pos hid]
      · rw [if_neg hid]; exact h
    · rw [if_neg hs]; exact ih _ h

theorem sweepAux_get_or (entries : List (String × Job)) (acc : Store)
    (id : String) :
    (sweepAux acc entries).get id = acc.get id ∨
      (sweepAux acc entries).get id = none := by
  induction entries generalizing acc with
  | nil => left; simp [sweepAux]
  | cons e rest ih =>
    rw [sweepAux_cons]
    by_cases hs : jobSwept e.2 = true
    · rw [if_pos hs]
      rcases ih (acc.delete (e.2 : Job).ID) with h | h
      · rw [Store.get_delete] at h
        by_cases hid : id = (e.2 : Job).ID
        · right; rw [h, if_pos hid]
        · left; rw [h, if_neg hid]
      · right; exact h
    · rw [if_neg hs]; exact ih acc

theorem sweepAux_deleted (entries : List (String × Job)) (acc : Store)
    (id : String) (j : Job) (hmem : (id, j) ∈ entries) (hid : j.ID = id)
    (hs : jobSwept j = true) :
    (sweepAux acc entries).get id = none := by
  induction entries generalizing acc with
  | nil => simp at hmem
  | cons e rest ih =>
    rw [sweepAux_cons]
    rcases List.mem_cons.mp hmem with h1 | h1
    · have he : e.2 = j := by rw [← h1]
      rw [he, if_pos hs, hid]
      apply sweepAux_get_none
      rw [Store.get_delete, if_pos rfl]
    · exact ih _ h1

theorem sweepAux_kept (entries : List (String × Job)) (acc : Store)
    (id : String)
    (h : ∀ e ∈ entries, jobSwept e.2 = true → (e.2 : Job).ID ≠ id) :
    (sweepAux acc entries).get id = acc.get id := by
  induction entries generalizing acc with
  | nil => simp [sweepAux]
  | cons e rest ih =>
    rw [sweepAux_cons]
    by_cases hs : jobSwept e.2 = true
    · have hne : (e.2 : Job).ID ≠ id := h e (List.mem_cons_self e rest) hs
      rw [if_pos hs, ih _ fun x hx hsx => h x (List.mem_cons_of_mem e hx) hsx,
        Store.get_delete, if_neg fun hh => hne hh.symm]
    · rw [if_neg hs]
      exact ih _ fun x hx hsx => h x (List.mem_cons_of_mem e hx) hsx

theorem jobSwept_iff (j : Job) :
    jobSwept j = true ↔ (j.Status = .Ack ∨ j.Status = .Failed) := by
  cases hj : j.Status <;> simp [jobSwept, hj]

/-- A successful `updateJobStatus` as one record equation, with the
written record and the sent notifications supplied in normalized form. -/
theorem updateJobStatus_eq (s : Store) (id : String) (st : JobStatus)
    (msg : String) (j0 jN : Job) (h : s.get id = some j0) (hid : j0.ID = id)
    (hN : jN = { j0 with
        Status := st
        Message := msg
        RetryCount :=
          if st = .Nack then j0.RetryCount + 1 else j0.RetryCount })
    (notifs : List String) (hnot : notifs = if st = .Nack then [id] else []) :
    updateJobStatus s id st msg true =
      { store := s.put id jN, notifications := notifs, result := .ok () } := by
  subst hN hnot
  simp only [updateJobStatus, h, if_true]
  rw [hid]

/-! ### Claim theorems -/

/-- C1, as stated, is false on the code: `PushJob` does not set
`Status` to `Uack` nor `RetryCount` to `0` (those are set by the
`PushBytes` wrapper).  Pushing a job whose `Status` is `Ack` and whose
`RetryCount` is `5` persists it with exactly those values. -/
theorem pushJob_status_counterexample :
    ¬ ((((pushJob []
          { ID := "caller", Data := [1, 2], Status := JobStatus.Ack,
            Message := "old", RetryCount := 5 }
          "fresh-1" true).store.get "fresh-1").map Job.Status =
        some JobStatus.Uack) ∧
       (((pushJob []
          { ID := "caller", Data := [1, 2], Status := JobStatus.Ack,
            Message := "old", RetryCount := 5 }
          "fresh-1" true).store.get "fresh-1").map Job.RetryCount =
        some 0)) := by
  decide

/-- C1 (amended): for every job record `j` passed to `PushJob`,
`PushJob` overwrites `j.ID` with the freshly generated token and
persists the record — with its `Status`, `Message`, `RetryCount` and
payload exactly as given — under the new ID before returning that ID.
(`Status = Uack` and `RetryCount = 0` are set by the `PushBytes`
wrapper, not by `PushJob`.) -/
theorem pushJob_overwrites_ID_and_persists (s : Store) (j : Job)
    (freshID : String) :
    (pushJob s j freshID true).result = .ok freshID ∧
    (pushJob s j freshID true).store.get freshID =
      some { j with ID := freshID } :=
  ⟨rfl, Store.get_put_self s freshID _⟩

/-- C2: when the persistence transaction of `PushJob` fails, the error
is returned, nothing is sent on the notification channel and the store
is unchanged; when it commits, exactly the newly generated ID is sent
on the notification channel and returned. -/
theorem pushJob_signal_iff_commit (s : Store) (j : Job) (freshID : String) :
    ((pushJob s j freshID false).result = .error .storeErr ∧
     (pushJob s j freshID false).notifications = [] ∧
     (pushJob s j freshID false).store = s) ∧
    ((pushJob s j freshID true).result = .ok freshID ∧
     (pushJob s j freshID true).notifications = [freshID]) :=
  ⟨⟨rfl, rfl, rfl⟩, rfl, rfl⟩

/-- C8: after a successful `PushBytes` of payload `d`, `GetJobByID` on
the returned ID yields a job with `Status = Uack`, `RetryCount = 0` and
payload `d`; and `GetJobByID` on an ID absent from the store returns
the not-found error. -/
theorem pushBytes_then_get (s : Store) (d : List Nat) (freshID : String)
    (idAbsent : String) (hA : s.get idAbsent = none) :
    getJobByID (pushBytes s d freshID true).store freshID =
      .ok { ID := freshID, Data := d, Status := .Uack, Message := "",
            RetryCount := 0 } ∧
    getJobByID s idAbsent = .error .notFound := by
  constructor
  · unfold getJobByID pushBytes pushJob
    simp only [if_pos]
    rw [Store.get_put_self]
  · unfold getJobByID
    rw [hA]

/-- Witness for C8 at a concrete input. -/
theorem pushBytes_then_get_witness :
    getJobByID (pushBytes [] [7, 9] "f1" true).store "f1" =
      .ok { ID := "f1", Data := [7, 9], Status := .Uack, Message := "",
            RetryCount := 0 } ∧
    getJobByID ([] : Store) "missing" = .error .notFound :=
  pushBytes_then_get [] [7, 9] "f1" "missing" rfl

/-- C3: for a stored ID, `updateJobStatus` fetches the current record,
sets its `Status` and `Message`, increments `RetryCount` exactly when
the new status is `Nack`, persists the result, and sends the same ID on
the notification channel exactly when the new status is `Nack` and the
write succeeded (in particular, a failed write sends nothing). -/
theorem updateJobStatus_readModifyWrite (s : Store) (id : String)
    (st : JobStatus) (msg : String) (j0 : Job)
    (hwf : WF s) (h : s.get id = some j0) :
    (updateJobStatus s id st msg true).result = .ok () ∧
    (updateJobStatus s id st msg true).store.get id =
      some { j0 with
              Status := st
              Message := msg
              RetryCount :=
                if st = .Nack then j0.RetryCount + 1 else j0.RetryCount } ∧
    (updateJobStatus s id st msg true).notifications =
      (if st = .Nack then [id] else []) ∧
    (updateJobStatus s id st msg false).notifications = [] := by
  have hid : j0.ID = id := WF.get_ID s id j0 hwf h
  refine ⟨?_, ?_, ?_, ?_⟩
  · simp only [updateJobStatus, h, if_true, if_false, Bool.false_eq_true]
  · simp only [updateJobStatus, h, if_true]
    rw [hid]
    exact Store.get_put_self _ _ _
  · simp only [updateJobStatus, h, if_true]
  · simp only [updateJobStatus, h, if_true, if_false, Bool.false_eq_true]

/-- Witness for C3 at a concrete input: a `Nack` transition increments
the retry count and re-signals the same ID. -/
theorem updateJobStatus_readModifyWrite_witness :
    (updateJobStatus sA "a" .Nack "retry me" true).result = .ok () ∧
    (updateJobStatus sA "a" .Nack "retry me" true).store.get "a" =
      some { jA with
              Status := .Nack
              Message := "retry me"
              RetryCount :=
                if JobStatus.Nack = .Nack then jA.RetryCount + 1
                else jA.RetryCount } ∧
    (updateJobStatus sA "a" .Nack "retry me" true).notifications =
      (if JobStatus.Nack = .Nack then ["a"] else []) ∧
    (updateJobStatus sA "a" .Nack "retry me" false).notifications = [] :=
  updateJobStatus_readModifyWrite sA "a" .Nack "retry me" jA
    ⟨by decide, by decide⟩ (by decide)

/-- C10: a successful `updateJobStatus` leaves the record's `ID` and
payload `Data` unchanged (only `Status`, `Message` and — for `Nack` —
`RetryCount` change), and every other key of the store is untouched. -/
theorem updateJobStatus_frame (s : Store) (id : String)
    (st : JobStatus) (msg : String) (j0 : Job)
    (hwf : WF s) (h : s.get id = some j0) :
    (∃ j', (updateJobStatus s id st msg true).store.get id = some j' ∧
       j'.ID = j0.ID ∧ j'.Data = j0.Data ∧ j'.Status = st ∧
       j'.Message = msg ∧
       j'.RetryCount =
         (if st = .Nack then j0.RetryCount + 1 else j0.RetryCount)) ∧
    ∀ idO, idO ≠ id →
      (updateJobStatus s id st msg true).store.get idO = s.get idO := by
  have hid : j0.ID = id := WF.get_ID s id j0 hwf h
  constructor
  · refine ⟨{ j0 with
        Status := st
        Message := msg
        RetryCount :=
          if st = .Nack then j0.RetryCount + 1 else j0.RetryCount },
      ?_, rfl, rfl, rfl, rfl, rfl⟩
    simp only [updateJobStatus, h, if_true]
    rw [hid]
    exact Store.get_put_self _ _ _
  · intro idO hne
    simp only [updateJobStatus, h, if_true]
    rw [hid]
    exact Store.get_put_ne s id idO _ hne

/-- Witness for C10 at a concrete input. -/
theorem updateJobStatus_frame_witness :
    (∃ j', (updateJobStatus sA "a" .Ack "Complete" true).store.get "a" =
        some j' ∧
       j'.ID = jA.ID ∧ j'.Data = jA.Data ∧ j'.Status = .Ack ∧
       j'.Message = "Complete" ∧
       j'.RetryCount =
         (if JobStatus.Ack = .Nack then jA.RetryCount + 1
          else jA.RetryCount)) ∧
    (updateJobStatus sA "a" .Ack "Complete" true).store.get "b" =
      sA.get "b" :=
  ⟨(updateJobStatus_frame sA "a" .Ack "Complete" jA
      ⟨by decide, by decide⟩ (by decide)).1,
   (updateJobStatus_frame sA "a" .Ack "Complete" jA
      ⟨by decide, by decide⟩ (by decide)).2 "b" (by decide)⟩

/-- C5: the startup recovery sweep (`processJobs`, run by `Init`)
deletes exactly the records whose status is terminal (`Ack` or
`Failed`); every `Uack`/`Nack` record stays in the store unchanged, and
nothing is sent on the notification channel. -/
theorem processJobs_purges_exactly_terminal (s : Store) (id : String)
    (hwf : WF s) :
    (processJobs s).notifications = [] ∧
    (processJobs s).store.get id =
      (s.get id).bind
        (fun j => if j.Status = .Ack ∨ j.Status = .Failed then none
                  else some j) := by
  refine ⟨rfl, ?_⟩
  cases hg : s.get id with
  | none =>
    rcases sweepAux_get_or s s id with hh | hh
    · exact hh.trans hg
    · exact hh
  | some j =>
    show (sweepAux s s).get id =
      if j.Status = .Ack ∨ j.Status = .Failed then none else some j
    by_cases hs : jobSwept j = true
    · rw [if_pos ((jobSwept_iff j).mp hs)]
      have hmem : (id, j) ∈ s := Store.get_mem s id j hg
      have hid : j.ID = id := hwf.2 (id, j) hmem
      exact sweepAux_deleted s s id j hmem hid hs
    · rw [if_neg (fun hh => hs ((jobSwept_iff j).mpr hh))]
      have hkeep : ∀ e ∈ s, jobSwept e.2 = true → (e.2 : Job).ID ≠ id := by
        intro e he hse hcontra
        have h1 : (e.2 : Job).ID = e.1 := hwf.2 e he
        have h2 : e.1 = id := h1.symm.trans hcontra
        have hmem2 : (id, e.2) ∈ s := by
          have : e = (id, e.2) := Prod.ext h2 rfl
          rw [← this]
          exact he
        have h3 := Store.mem_get s id e.2 hwf.1 hmem2
        rw [hg] at h3
        have h4 : j = e.2 := Option.some.inj h3
        rw [← h4] at hse
        exact hs hse
      rw [sweepAux_kept s s id hkeep, hg]

/-- Witness for C5 at a concrete input: the `Ack` record of `sB` is
purged. -/
theorem processJobs_purges_exactly_terminal_witness :
    (processJobs sB).notifications = [] ∧
    (processJobs sB).store.get "b" =
      (sB.get "b").bind
        (fun j => if j.Status = .Ack ∨ j.Status = .Failed then none
                  else some j) :=
  processJobs_purges_exactly_terminal sB "b" ⟨by decide, by decide⟩

/-- C4: across one engine operation (push, status update, sweep), a
record stored both before and after has a `RetryCount` (a `Nat`, hence
non-negative) that never decreases: it is incremented by exactly one
when the operation is a successful `updateJobStatus` of that ID to
`Nack`, and is unchanged otherwise.  Push operations are taken at a
collision-free fresh ID, as the spec assumes of uuid generation. -/
theorem retryCount_step (s : Store) (op : EngineOp) (id : String)
    (j j' : Job) (hwf : WF s) (hfresh : opFresh op s)
    (h : s.get id = some j) (h' : (applyOp s op).get id = some j') :
    j.RetryCount ≤ j'.RetryCount ∧
    j'.RetryCount = j.RetryCount + (if nackBump op id then 1 else 0) := by
  suffices hs : j'.RetryCount = j.RetryCount + (if nackBump op id then 1 else 0) by
    exact ⟨hs ▸ Nat.le_add_right _ _, hs⟩
  cases op with
  | pushJ jj fid ok =>
    cases ok with
    | false =>
      simp only [applyOp, pushJob, Bool.false_eq_true, if_false] at h'
      have hjj : j = j' := Option.some.inj (h.symm.trans h')
      subst hjj
      simp [nackBump]
    | true =>
      simp only [applyOp, pushJob, if_true] at h'
      have hne : id ≠ fid := by
        intro hh
        rw [hh, (hfresh : s.get fid = none)] at h
        exact Option.noConfusion h
      rw [Store.get_put_ne s fid id _ hne] at h'
      have hjj : j = j' := Option.some.inj (h.symm.trans h')
      subst hjj
      simp [nackBump]
  | pushB d fid ok =>
    cases ok with
    | false =>
      simp only [applyOp, pushBytes, pushJob, Bool.false_eq_true, if_false] at h'
      have hjj : j = j' := Option.some.inj (h.symm.trans h')
      subst hjj
      simp [nackBump]
    | true =>
      simp only [applyOp, pushBytes, pushJob, if_true] at h'
      have hne : id ≠ fid := by
        intro hh
        rw [hh, (hfresh : s.get fid = none)] at h
        exact Option.noConfusion h
      rw [Store.get_put_ne s fid id _ hne] at h'
      have hjj : j = j' := Option.some.inj (h.symm.trans h')
      subst hjj
      simp [nackBump]
  | update idU st msg ok =>
    simp only [applyOp, updateJobStatus] at h'
    cases hg : s.get idU with
    | none =>
      simp only [hg] at h'
      have hjj : j = j' := Option.some.inj (h.symm.trans h')
      subst hjj
      have hne : ¬ (idU = id) := by
        intro hh
        rw [hh, h] at hg
        exact Option.noConfusion hg
      cases st <;> cases ok <;> simp [nackBump, hne]
    | some j0 =>
      simp only [hg] at h'
      cases ok with
      | false =>
        simp only [Bool.false_eq_true, if_false] at h'
        have hjj : j = j' := Option.some.inj (h.symm.trans h')
        subst hjj
        cases st <;> simp [nackBump]
      | true =>
        simp only [if_true] at h'
        have hid0 : j0.ID = idU := WF.get_ID s idU j0 hwf hg
        simp only [hid0] at h'
        by_cases hii : idU = id
        · subst hii
          have hj0 : j0 = j := Option.some.inj (hg.symm.trans h)
          subst hj0
          rw [Store.get_put_self] at h'
          have hj' : j' = _ := (Option.some.inj h').symm
          rw [hj']
          cases st <;> simp [nackBump]
        · have hne : id ≠ idU := fun hh => hii hh.symm
          rw [Store.get_put_ne s idU id _ hne] at h'
          have hjj : j = j' := Option.some.inj (h.symm.trans h')
          subst hjj
          cases st <;> simp [nackBump, hii]
  | sweep =>
    simp only [applyOp, processJobs] at h'
    rcases sweepAux_get_or s s id with hh | hh
    · rw [hh, h] at h'
      have hjj : j = j' := Option.some.inj h'
      subst hjj
      simp [nackBump]
    · rw [hh] at h'
      exact Option.noConfusion h'

/-- Witness for C4 at a concrete input: a successful `Nack` update
takes the retry count from 0 to exactly 1. -/
theorem retryCount_step_witness :
    jA.RetryCount ≤
      ({ jA with
          Status := .Nack
          Message := "again"
          RetryCount := 1 } : Job).RetryCount ∧
    ({ jA with
        Status := .Nack
        Message := "again"
        RetryCount := 1 } : Job).RetryCount =
      jA.RetryCount +
        (if nackBump (.update "a" .Nack "again" true) "a" then 1 else 0) :=
  retryCount_step sA (.update "a" .Nack "again" true) "a" jA
    { jA with Status := .Nack, Message := "again", RetryCount := 1 }
    ⟨by decide, by decide⟩ trivial (by decide) (by decide)

/-- C6: for a dequeued job whose `DoWork` call is invoked, the final
record is marked `Ack` with message "Complete" when `DoWork` returns no
error, `Nack` with the error text (and an incremented retry count) when
it returns a `RecoverableWorkerError`, and `Failed` with the error text
for any other error. -/
theorem dispatch_outcomes (s : Store) (id wid : String)
    (doWork : Job → WorkOutcome) (j0 : Job) (hwf : WF s)
    (h : s.get id = some j0) :
    (dispatchIteration s id wid doWork true true).doWorkInvoked = true ∧
    (dispatchIteration s id wid doWork true true).store.get id =
      some (match doWork { j0 with
                Status := .Uack
                Message := "Picked up by " ++ wid } with
            | .success => { j0 with Status := .Ack, Message := "Complete" }
            | .recoverable m => { j0 with
                Status := .Nack
                Message := m
                RetryCount := j0.RetryCount + 1 }
            | .permanent m => { j0 with Status := .Failed, Message := m }) := by
  have hid : j0.ID = id := WF.get_ID s id j0 hwf h
  have e1 : updateJobStatus s id .Uack ("Picked up by " ++ wid) true =
      { store := s.put id { j0 with
            Status := .Uack
            Message := "Picked up by " ++ wid }
        notifications := []
        result := .ok () } :=
    updateJobStatus_eq s id .Uack ("Picked up by " ++ wid) j0
      { j0 with Status := .Uack, Message := "Picked up by " ++ wid }
      h hid (by simp) [] (by simp)
  simp only [dispatchIteration, e1, getJobByID, Store.get_put_self]
  cases hdw : doWork { j0 with
      Status := .Uack
      Message := "Picked up by " ++ wid } with
  | success =>
    have e2 : updateJobStatus
        (s.put id { j0 with
          Status := .Uack
          Message := "Picked up by " ++ wid }) id .Ack "Complete" true =
        { store := (s.put id { j0 with
              Status := .Uack
              Message := "Picked up by " ++ wid }).put id
            { j0 with Status := .Ack, Message := "Complete" }
          notifications := []
          result := .ok () } :=
      updateJobStatus_eq _ id .Ack "Complete"
        { j0 with Status := .Uack, Message := "Picked up by " ++ wid }
        { j0 with Status := .Ack, Message := "Complete" }
        (Store.get_put_self _ _ _) hid (by simp) [] (by simp)
    simp only [e2]
    exact ⟨trivial, Store.get_put_self _ _ _⟩
  | recoverable m =>
    have e2 : updateJobStatus
        (s.put id { j0 with
          Status := .Uack
          Message := "Picked up by " ++ wid }) id .Nack m true =
        { store := (s.put id { j0 with
              Status := .Uack
              Message := "Picked up by " ++ wid }).put id
            { j0 with
              Status := .Nack
              Message := m
              RetryCount := j0.RetryCount + 1 }
          notifications := [id]
          result := .ok () } :=
      updateJobStatus_eq _ id .Nack m
        { j0 with Status := .Uack, Message := "Picked up by " ++ wid }
        { j0 with
          Status := .Nack
          Message := m
          RetryCount := j0.RetryCount + 1 }
        (Store.get_put_self _ _ _) hid (by simp) [id] (by simp)
    simp only [e2]
    exact ⟨trivial, Store.get_put_self _ _ _⟩
  | permanent m =>
    have e2 : updateJobStatus
        (s.put id { j0 with
          Status := .Uack
          Message := "Picked up by " ++ wid }) id .Failed m true =
        { store := (s.put id { j0 with
              Status := .Uack
              Message := "Picked up by " ++ wid }).put id
            { j0 with Status := .Failed, Message := m }
          notifications := []
          result := .ok () } :=
      updateJobStatus_eq _ id .Failed m
        { j0 with Status := .Uack, Message := "Picked up by " ++ wid }
        { j0 with Status := .Failed, Message := m }
        (Store.get_put_self _ _ _) hid (by simp) [] (by simp)
    simp only [e2]
    exact ⟨trivial, Store.get_put_self _ _ _⟩

/-- Witness for C6 at a concrete input, with a worker that succeeds. -/
theorem dispatch_outcomes_witness :
    (dispatchIteration sA "a" "w1" (fun _ => .success) true true).doWorkInvoked =
      true ∧
    (dispatchIteration sA "a" "w1" (fun _ => .success) true true).store.get "a" =
      some (match (fun (_ : Job) => WorkOutcome.success) { jA with
                Status := .Uack
                Message := "Picked up by " ++ "w1" } with
            | .success => { jA with Status := .Ack, Message := "Complete" }
            | .recoverable m => { jA with
                Status := .Nack
                Message := m
                RetryCount := jA.RetryCount + 1 }
            | .permanent m => { jA with Status := .Failed, Message := m }) :=
  dispatch_outcomes sA "a" "w1" (fun _ => .success) jA
    ⟨by decide, by decide⟩ (by decide)

/-- C7: when the initial marking of a dequeued ID as `Uack` fails
(store error on the write, or the record is gone), the dispatch loop
abandons the iteration: `DoWork` is not invoked, nothing is re-sent on
the notification channel, and the store is unchanged. -/
theorem dispatch_mark_failure_abandons (s : Store) (id wid : String)
    (doWork : Job → WorkOutcome) (finalPutOk : Bool) :
    (dispatchIteration s id wid doWork false finalPutOk).doWorkInvoked =
      false ∧
    (dispatchIteration s id wid doWork false finalPutOk).notifications = [] ∧
    (dispatchIteration s id wid doWork false finalPutOk).store = s := by
  cases hg : s.get id with
  | none => simp [dispatchIteration, updateJobStatus, hg]
  | some j0 => simp [dispatchIteration, updateJobStatus, hg]

end Orcaq
